import Mathlib

/-!
Verification of the ORBIS-Mesh status aggregator
(`batman/install/opt/orbis_data/ogm/enhanced_ogm_monitor.py`).

The Python module is shallowly embedded below: every collector, the merger,
the power-state builder, the JSON publisher and the atomic-write routine are
translated into executable Lean definitions, keeping the source's names where
Lean allows it.  External effects (command invocation, `/sys` reads, the
clock) are passed in explicitly as data, so each function is a pure function
of its observable inputs, exactly as the Python code is a function of what it
reads from the outside world.
-/

namespace Ogm

/-- Characters matched by the character class `[0-9A-Fa-f:]` used for
MAC-shaped tokens throughout the monitor. -/
def isMacChar (c : Char) : Bool :=
  c.isDigit || (('a' ≤ c) && (c ≤ 'f')) || (('A' ≤ c) && (c ≤ 'F')) || (c = ':')

/-- Word characters for the regex `\b` boundary: `[A-Za-z0-9_]`. -/
def isWordChar (c : Char) : Bool :=
  c.isAlphanum || c = '_'

/-- Whitespace as matched by `\s` and stripped by Python `str.strip`. -/
def isPySpace (c : Char) : Bool :=
  c = ' ' || c = '\t' || c = '\n' || c = '\x0b' || c = '\x0c' || c = '\r'

/-- Python `str.rstrip()` on a character list. -/
def rstripChars (l : List Char) : List Char :=
  (l.reverse.dropWhile isPySpace).reverse

/-- Python `str.strip()` on a character list. -/
def stripChars (l : List Char) : List Char :=
  rstripChars (l.dropWhile isPySpace)

/-- Python `str.lower()` (the inputs here are ASCII, where `Char.toLower`
agrees with Python). -/
def pyLower (s : String) : String :=
  ⟨s.data.map Char.toLower⟩

/-- Python `str.strip()` on a string. -/
def pyStrip (s : String) : String :=
  ⟨stripChars s.data⟩

/-- Python `str.rstrip()` on a string. -/
def pyRstrip (s : String) : String :=
  ⟨rstripChars s.data⟩

/-- Substring containment, Python `sub in s`. -/
def containsSub (sub : List Char) : List Char → Bool
  | [] => sub.isEmpty
  | c :: rest => sub.isPrefixOf (c :: rest) || containsSub sub rest

/-- Split a character list at newlines. -/
def splitNl : List Char → List (List Char)
  | [] => [[]]
  | '\n' :: rest => [] :: splitNl rest
  | c :: rest =>
    match splitNl rest with
    | [] => [[c]]
    | h :: t => (c :: h) :: t

/-- Python `str.splitlines()` as used on command output: split on newlines,
with no empty trailing line. -/
def pyLines (s : String) : List String :=
  let parts := (splitNl s.data).map fun l => (⟨l⟩ : String)
  if parts.getLast? = some "" then parts.dropLast else parts

/-- Leftmost match of the regex `[0-9A-Fa-f:]{17}`: the first position whose
next 17 characters are all MAC characters. -/
def findMac : List Char → Option (List Char)
  | [] => none
  | c :: rest =>
    if ((c :: rest).take 17).length = 17 && ((c :: rest).take 17).all isMacChar
    then some ((c :: rest).take 17)
    else findMac rest

/-- All windows matched by `[0-9A-Fa-f:]{17}`, in positional order: the
complete list of MAC-shaped tokens of a line.  The spec's "first" and "last"
MAC-shaped token are this list's head and last element. -/
def macWindows : List Char → List (List Char)
  | [] => []
  | c :: rest =>
    (if ((c :: rest).take 17).length = 17 && ((c :: rest).take 17).all isMacChar
     then [(c :: rest).take 17] else []) ++ macWindows rest

/-- Numeric value of a digit list (the digits of a regex group `\d+`). -/
def digitsToNat (l : List Char) : Nat :=
  l.foldl (fun acc c => 10 * acc + (c.toNat - 48)) 0

/-- Value of a decimal literal group `-?\d+(\.\d+)?` as an exact rational;
Python converts the matched text with `float(...)`, which we model exactly on
the decimal literal (the monitor only ever passes such values through). -/
def parseDecRat (s : String) : Rat :=
  let go : List Char → Rat := fun l =>
    let ds := l.takeWhile Char.isDigit
    let ip : Rat := (digitsToNat ds : Nat)
    match l.drop ds.length with
    | '.' :: fr =>
      let fs := fr.takeWhile Char.isDigit
      ip + (digitsToNat fs : Rat) / ((10 : Rat) ^ fs.length)
    | _ => ip
  match s.data with
  | '-' :: rest => - go rest
  | l => go l

/-- Python `int(...)` on an already-stripped string: optional sign then at
least one digit. -/
def pyInt (s : String) : Option Int :=
  let core (l : List Char) (sign : Int) : Option Int :=
    if l ≠ [] && l.all Char.isDigit then some (sign * (digitsToNat l : Int)) else none
  match s.data with
  | '-' :: rest => core rest (-1)
  | '+' :: rest => core rest 1
  | l => core l 1

/-- Attempt, at the current position, the regex fragment
`-?\d+(?:\.\d+)?` (sign only when `allowNeg`, fraction only when
`allowFrac`) followed by a context check `k` on the remainder, with the
backtracking order of Python `re`: longest digit run first, and for each run
the fraction alternatives (longest first) before the fraction-less one.
Returns the text of the capture group. -/
def numThenAt (allowNeg allowFrac : Bool) (k : List Char → Bool) (l : List Char) :
    Option String :=
  let (sign, l1) : List Char × List Char :=
    match l with
    | '-' :: r => if allowNeg then (['-'], r) else ([], l)
    | _ => ([], l)
  let ds := l1.takeWhile Char.isDigit
  if ds.isEmpty then none else
  (List.range ds.length).reverse.findSome? fun j1 =>
    let j := j1 + 1
    let rest := l1.drop j
    let withFrac : Option String :=
      if allowFrac then
        match rest with
        | '.' :: r2 =>
          let fs := r2.takeWhile Char.isDigit
          if fs.isEmpty then none else
          (List.range fs.length).reverse.findSome? fun k1 =>
            let kk := k1 + 1
            if k (r2.drop kk) then
              some ⟨sign ++ ds.take j ++ '.' :: fs.take kk⟩
            else none
        | _ => none
      else none
    match withFrac with
    | some m => some m
    | none => if k rest then some ⟨sign ++ ds.take j⟩ else none

/-- `re.search` for a numeric pattern: try `numThenAt` at each position, left
to right. -/
def searchNum (allowNeg allowFrac : Bool) (k : List Char → Bool) :
    List Char → Option String
  | [] => none
  | c :: rest =>
    match numThenAt allowNeg allowFrac k (c :: rest) with
    | some m => some m
    | none => searchNum allowNeg allowFrac k rest

/-- The suffix of the line after its final `)`: Python
`line.split(")")[-1] if ")" in line else ""`. -/
def afterLastParen (l : List Char) : List Char :=
  if l.contains ')' then (l.reverse.takeWhile (· ≠ ')')).reverse else []

/-- The regex `(\d+(?:\.\d+)?)s` applied to a route-table line: a decimal
group followed by the letter `s`. -/
def findSeen (l : List Char) : Option String :=
  searchNum false true (fun r => r.head? = some 's') l

/-- The regex `\((\d+(?:\.\d+)?)` applied to a route-table line: the first
`(` that is followed by a decimal group. -/
def findThr : List Char → Option String
  | [] => none
  | '(' :: rest =>
    match numThenAt false true (fun _ => true) rest with
    | some m => some m
    | none => findThr rest
  | _ :: rest => findThr rest

/-- A parsed route-table entry (`get_batman_nodes` value), later enriched by
the merger with the optional wireless metrics.  Field order matches the
Python dict insertion order. -/
structure NodeRecord where
  last_seen : Rat
  throughput : Rat
  nexthop : String
  hostname : Option String := none
  signal_dbm : Option Rat := none
  rx_packets : Option Nat := none
  rx_drop_misc : Option Nat := none
  tx_packets : Option Nat := none
  tx_retries : Option Nat := none
  tx_failed : Option Nat := none
  tx_bitrate_mbps : Option Rat := none
  rx_bitrate_mbps : Option Rat := none
  deriving Repr, DecidableEq

/-- Python `dict` lookup on an insertion-ordered association list. -/
def dictGet {α : Type} (d : List (String × α)) (k : String) : Option α :=
  (d.find? fun p => p.1 = k).map Prod.snd

/-- Python `dict` assignment `d[k] = v`: update in place when the key exists
(keeping its position), append otherwise. -/
def dictInsert {α : Type} (d : List (String × α)) (k : String) (v : α) :
    List (String × α) :=
  if d.any (fun p => p.1 = k) then
    d.map fun p => if p.1 = k then (k, v) else p
  else d ++ [(k, v)]

/-- Truthiness of the optional local MAC, Python `if self.local_mac and ...`:
`None` and the empty string are falsy. -/
def macTruthy : Option String → Bool
  | none => false
  | some s => !s.isEmpty

/-- One iteration of the `get_batman_nodes` line loop: the accepted
originator line parsed into its key and record, or `none` when the line is
skipped (no `" * "` marker, no MAC-shaped token, or self-reference). -/
def parseOriginatorLine (localMac : Option String) (raw : String) :
    Option (String × NodeRecord) :=
  let line := rstripChars raw.data
  if !containsSub " * ".data line then none else
  match findMac line with
  | none => none
  | some w =>
    let mac : String := pyLower ⟨w⟩
    if macTruthy localMac && mac = pyLower (localMac.getD "") then none else
    let last_seen : Rat := match findSeen line with
      | some m => parseDecRat m
      | none => 0
    let throughput : Rat := match findThr line with
      | some m => parseDecRat m
      | none => 0
    let after := afterLastParen line
    let nexthop : String := match findMac after with
      | some v => pyLower ⟨v⟩
      | none => ""
    some (mac, { last_seen := last_seen, throughput := throughput, nexthop := nexthop })

/-- `EnhancedOGMMonitor.get_batman_nodes`: invoke `batctl o` (its result is
passed in as an `Except`, `.error` modelling any raised exception) and fold
the accepted lines into the nodes dict.  On invocation failure the empty map
is returned. -/
def get_batman_nodes (localMac : Option String) (batctlOut : Except Unit String) :
    List (String × NodeRecord) :=
  match batctlOut with
  | .error _ => []
  | .ok out =>
    (pyLines out).foldl
      (fun nodes raw =>
        match parseOriginatorLine localMac raw with
        | none => nodes
        | some (mac, rec) => dictInsert nodes mac rec)
      []

/-- Case-insensitive ASCII prefix test for regex literals under
`re.IGNORECASE`. -/
def ciStarts (w : String) (l : List Char) : Bool :=
  (w.data.map Char.toLower).isPrefixOf (l.map Char.toLower)

/-- Consume a keyword sequence: the words (given with their trailing
punctuation) separated by `\s+`, case-insensitively; returns the remainder
after the last word. -/
def matchWordsCI : List String → List Char → Option (List Char)
  | [], l => some l
  | [w], l => if ciStarts w l then some (l.drop w.length) else none
  | w :: ws, l =>
    if ciStarts w l then
      let r := l.drop w.length
      let sp := r.takeWhile isPySpace
      if sp.isEmpty then none else matchWordsCI ws (r.drop sp.length)
    else none

/-- `re.search` for a keyword pattern `\bword(\s+word)*` followed by `\s*`
and then a payload matcher `pay`: scan left to right, requiring a word
boundary before the keyword. -/
def searchKeyGo {α : Type} (words : List String) (pay : List Char → Option α) :
    Option Char → List Char → Option α
  | _, [] => none
  | prev, c :: rest =>
    let attempt : Option α :=
      if (match prev with | some p => !isWordChar p | none => true) then
        match matchWordsCI words (c :: rest) with
        | some r => pay (r.dropWhile isPySpace)
        | none => none
      else none
    match attempt with
    | some v => some v
    | none => searchKeyGo words pay (some c) rest

/-- Word boundary `\b` immediately after a word character: the remainder is
empty or starts with a non-word character. -/
def boundaryAfterWord (rest : List Char) : Bool :=
  match rest.head? with
  | none => true
  | some c => !isWordChar c

/-- The counter patterns `\bkey:\s*(\d+)\b`: an integer group followed by a
word boundary. -/
def searchCounter (words : List String) (l : List Char) : Option Nat :=
  (searchKeyGo words (fun r => numThenAt false false boundaryAfterWord r) none l).map
    fun m => digitsToNat m.data

/-- Context check for the signal patterns: `\s*(?:\[[^\]]+\])?\s*dBm\b`. -/
def dbmAfter (r : List Char) : Bool :=
  let r1 := r.dropWhile isPySpace
  let r2 :=
    match r1 with
    | '[' :: t =>
      let inside := t.takeWhile (· ≠ ']')
      if inside.isEmpty then r1 else
      match t.drop inside.length with
      | ']' :: t2 => t2
      | _ => r1
    | _ => r1
  let r3 := r2.dropWhile isPySpace
  ciStarts "dBm" r3 && boundaryAfterWord (r3.drop 3)

/-- `signal:` / `signal avg:` value: `(-?\d+(?:\.\d+)?)` before `dBm`. -/
def searchSignal (words : List String) (l : List Char) : Option Rat :=
  (searchKeyGo words (fun r => numThenAt true true dbmAfter r) none l).map parseDecRat

/-- `_parse_bitrate_to_mbps`: first `(\d+(?:\.\d+)?)\s*MBit/s`, else
`(\d+(?:\.\d+)?)\s*Mb/s`, both case-insensitive. -/
def parse_bitrate_to_mbps (l : List Char) : Option Rat :=
  let unitAfter (u : String) : List Char → Bool := fun r =>
    ciStarts u (r.dropWhile isPySpace)
  match searchNum false true (unitAfter "MBit/s") l with
  | some m => some (parseDecRat m)
  | none => (searchNum false true (unitAfter "Mb/s") l).map parseDecRat

/-- The bitrate line patterns `\btx\s+bitrate:\s*(.+)$`: the group is the
non-empty remainder of the line. -/
def searchBitrateRest (words : List String) (l : List Char) : Option (List Char) :=
  searchKeyGo words (fun r => if r.isEmpty then none else some r) none l

/-- Station header pattern `\bStation\s+([0-9A-Fa-f:]{17})\b` (this one is
case-sensitive in the source).  The trailing boundary compares the word-ness
of the 17th character and its successor. -/
def stationHeaderGo : Option Char → List Char → Option (List Char)
  | _, [] => none
  | prev, c :: rest =>
    let attempt : Option (List Char) :=
      if (match prev with | some p => !isWordChar p | none => true) then
        if "Station".data.isPrefixOf (c :: rest) then
          let r := (c :: rest).drop 7
          let sp := r.takeWhile isPySpace
          if sp.isEmpty then none else
          let r2 := r.drop sp.length
          let mac := r2.take 17
          if mac.length = 17 && mac.all isMacChar then
            let lastOk : Bool :=
              match mac.getLast?, (r2.drop 17).head? with
              | some lc, none => isWordChar lc
              | some lc, some nc => isWordChar lc != isWordChar nc
              | none, _ => false
            if lastOk then some mac else none
          else none
        else none
      else none
    match attempt with
    | some m => some m
    | none => stationHeaderGo (some c) rest

/-- The per-station metrics accumulated from a `Station` block
(`get_wifi_stations` value).  Field order matches the order the Python code
checks the attribute patterns. -/
structure StationBlock where
  signal_dbm : Option Rat := none
  rx_packets : Option Nat := none
  rx_drop_misc : Option Nat := none
  tx_packets : Option Nat := none
  tx_retries : Option Nat := none
  tx_failed : Option Nat := none
  tx_bitrate_mbps : Option Rat := none
  rx_bitrate_mbps : Option Rat := none
  deriving Repr, DecidableEq

/-- Python truthiness of the block dict: `if block:` is false exactly when no
attribute was parsed. -/
def blockEmpty (b : StationBlock) : Bool :=
  b.signal_dbm = none && b.rx_packets = none && b.rx_drop_misc = none &&
  b.tx_packets = none && b.tx_retries = none && b.tx_failed = none &&
  b.tx_bitrate_mbps = none && b.rx_bitrate_mbps = none

/-- Apply the attribute patterns of the station-dump loop to one stripped
line, in source order. -/
def applyAttrs (b0 : StationBlock) (line : List Char) : StationBlock :=
  let b1 := match searchSignal ["signal:"] line with
    | some v => { b0 with signal_dbm := some v }
    | none => b0
  let b2 := match searchSignal ["signal", "avg:"] line with
    | some v => if b1.signal_dbm = none then { b1 with signal_dbm := some v } else b1
    | none => b1
  let b3 := match searchCounter ["rx", "packets:"] line with
    | some v => { b2 with rx_packets := some v }
    | none => b2
  let b4 := match searchCounter ["rx", "drop", "misc:"] line with
    | some v => { b3 with rx_drop_misc := some v }
    | none => b3
  let b5 := match searchCounter ["tx", "packets:"] line with
    | some v => { b4 with tx_packets := some v }
    | none => b4
  let b6 := match searchCounter ["tx", "retries:"] line with
    | some v => { b5 with tx_retries := some v }
    | none => b5
  let b7 := match searchCounter ["tx", "failed:"] line with
    | some v => { b6 with tx_failed := some v }
    | none => b6
  let b8 := match searchBitrateRest ["tx", "bitrate:"] line with
    | some r =>
      match parse_bitrate_to_mbps r with
      | some v => { b7 with tx_bitrate_mbps := some v }
      | none => b7
    | none => b7
  match searchBitrateRest ["rx", "bitrate:"] line with
  | some r =>
    match parse_bitrate_to_mbps r with
    | some v => { b8 with rx_bitrate_mbps := some v }
    | none => b8
  | none => b8

/-- State of the station-dump line loop: the stations dict (shared across
interfaces in the source), the currently open block, and the `saw_any`
flag. -/
structure IwState where
  stations : List (String × StationBlock)
  current : Option String
  block : StationBlock
  saw_any : Bool
  deriving Repr, DecidableEq

/-- One iteration of the station-dump line loop. -/
def iwLine (st : IwState) (raw : String) : IwState :=
  let line := stripChars raw.data
  match stationHeaderGo none line with
  | some mac =>
    let stations :=
      match st.current with
      | some cm => if blockEmpty st.block then st.stations else dictInsert st.stations cm st.block
      | none => st.stations
    { stations := stations, current := some (pyLower ⟨mac⟩), block := {}, saw_any := true }
  | none =>
    match st.current with
    | none => st
    | some _ => { st with block := applyAttrs st.block line }

/-- Flush the block left open at end of output. -/
def iwFlush (st : IwState) : IwState :=
  match st.current with
  | some cm =>
    if blockEmpty st.block then st else { st with stations := dictInsert st.stations cm st.block }
  | none => st

/-- Parse one interface's `iw dev <iface> station dump` output, starting from
the stations accumulated so far; returns the grown stations dict and the
interface's `saw_any` flag. -/
def parseIw (s0 : List (String × StationBlock)) (out : String) :
    List (String × StationBlock) × Bool :=
  let st := iwFlush ((pyLines out).foldl iwLine
    { stations := s0, current := none, block := {}, saw_any := false })
  (st.stations, st.saw_any)

/-- The fixed interface priority order `WIFI_IFACES`. -/
def WIFI_IFACES : List String := ["wlan1", "mesh0", "wlan0"]

/-- The interface loop of `get_wifi_stations`.  An environment function gives
each interface's command result (`.error` models a raised exception, which
the source logs and skips).  Besides the stations dict, the list of
interfaces actually queried is returned, in order. -/
def iwLoop (ifaces : List String) (env : String → Except Unit String)
    (s0 : List (String × StationBlock)) :
    List (String × StationBlock) × List String :=
  match ifaces with
  | [] => (s0, [])
  | iface :: rest =>
    match env iface with
    | .error _ =>
      let (st, q) := iwLoop rest env s0
      (st, iface :: q)
    | .ok out =>
      let p := parseIw s0 out
      if p.2 && !p.1.isEmpty then (p.1, [iface])
      else
        let (st, q) := iwLoop rest env p.1
        (st, iface :: q)

/-- `EnhancedOGMMonitor.get_wifi_stations`. -/
def get_wifi_stations (env : String → Except Unit String) :
    List (String × StationBlock) :=
  (iwLoop WIFI_IFACES env []).1

/-- One `/sys/class/power_supply/*` entry as the monitor observes it.  Each
attribute is the raw file content, `none` when the read raises (missing file
or I/O error).  For `online`, `none` also covers the absent file: the source
treats both as the default value `"1"`. -/
structure PowerSupply where
  typ : Option String := none
  status : Option String := none
  capacity : Option String := none
  online : Option String := none
  deriving Repr, DecidableEq

/-- The dict built by `read_power_info`. -/
structure PowerInfo where
  battery_pct : Option Int := none
  power_source : String := "unknown"
  status : Option String := none
  battery_present : Bool := false
  deriving Repr, DecidableEq

/-- Loop state of `read_power_info`: the info dict plus the `has_batt` and
`has_ext` flags. -/
structure PowerScan where
  info : PowerInfo
  has_batt : Bool
  has_ext : Bool
  deriving Repr, DecidableEq

/-- One iteration of the `read_power_info` enumeration loop. -/
def powerStep (st : PowerScan) (p : PowerSupply) : PowerScan :=
  let typ := match p.typ with
    | some s => pyStrip s
    | none => ""
  let t := pyLower typ
  let info1 := match p.status with
    | some s =>
      let st1 := pyStrip s
      if st1 ≠ "" then { st.info with status := some st1 } else st.info
    | none => st.info
  if t = "battery" then
    let info2 := match p.capacity.bind fun c => pyInt (pyStrip c) with
      | some cap => if 0 ≤ cap && cap ≤ 100 then { info1 with battery_pct := some cap } else info1
      | none => info1
    { info := info2, has_batt := true, has_ext := st.has_ext }
  else if t = "mains" || t = "usb" || t = "ac" then
    let online := match p.online with
      | some c => pyStrip c
      | none => "1"
    { info := info1, has_batt := st.has_batt, has_ext := st.has_ext || online = "1" }
  else
    { st with info := info1 }

/-- `EnhancedOGMMonitor.read_power_info`, as a function of the enumerated
power-supply entries (in enumeration order). -/
def read_power_info (supplies : List PowerSupply) : PowerInfo :=
  let st := supplies.foldl powerStep
    { info := { battery_pct := none, power_source := "unknown", status := none,
                battery_present := false },
      has_batt := false, has_ext := false }
  { st.info with
    battery_present := st.has_batt,
    power_source := if st.has_batt then "battery"
      else if st.has_ext then "external" else "unknown" }

/-- The `local` object built by `build_local_obj`.  Field order matches the
Python dict insertion order; `battery_pct` and `status` are present only
under the source's conditions. -/
structure LocalObj where
  mac : String
  battery_present : Bool
  battery_pct : Option Int
  power_source : String
  status : Option String
  deriving Repr, DecidableEq

/-- `EnhancedOGMMonitor.build_local_obj`. -/
def build_local_obj (localMac : Option String) (supplies : List PowerSupply) : LocalObj :=
  let me := pyLower (localMac.getD "")
  let pinfo := read_power_info supplies
  { mac := me,
    battery_present := pinfo.battery_present,
    battery_pct := pinfo.battery_pct,
    power_source := pinfo.power_source,
    status := match pinfo.status with
      | some s => if s ≠ "" then some s else none
      | none => none }

/-- Python `a or b` on the two `stats.get` results, where an empty block dict
is falsy. -/
def statsOr (a b : Option StationBlock) : Option StationBlock :=
  match a with
  | some blk => if blockEmpty blk then b else some blk
  | none => b

/-- Copy every metric field present in the peer block into the node record
(the loop `for k in (...) : if k in peer: info[k] = peer[k]`). -/
def copyMetrics (info : NodeRecord) (peer : StationBlock) : NodeRecord :=
  { info with
    signal_dbm := match peer.signal_dbm with
      | some v => some v
      | none => info.signal_dbm,
    rx_packets := match peer.rx_packets with
      | some v => some v
      | none => info.rx_packets,
    rx_drop_misc := match peer.rx_drop_misc with
      | some v => some v
      | none => info.rx_drop_misc,
    tx_packets := match peer.tx_packets with
      | some v => some v
      | none => info.tx_packets,
    tx_retries := match peer.tx_retries with
      | some v => some v
      | none => info.tx_retries,
    tx_failed := match peer.tx_failed with
      | some v => some v
      | none => info.tx_failed,
    tx_bitrate_mbps := match peer.tx_bitrate_mbps with
      | some v => some v
      | none => info.tx_bitrate_mbps,
    rx_bitrate_mbps := match peer.rx_bitrate_mbps with
      | some v => some v
      | none => info.rx_bitrate_mbps }

/-- The per-entry body of the merge loop in `build_status`.  The hostname map
is the literal empty dict in the source (`hosts = {}`), kept here verbatim,
so both hostname branches are dead. -/
def mergeOne (me : String) (stats : List (String × StationBlock))
    (mac : String) (info : NodeRecord) : NodeRecord :=
  let hosts : List (String × String) := []
  let info1 :=
    if (dictGet hosts mac).isSome && mac ≠ me then
      { info with hostname := dictGet hosts mac }
    else if (dictGet hosts info.nexthop).isSome && info.nexthop ≠ me then
      { info with hostname := dictGet hosts info.nexthop }
    else info
  let peer := statsOr (dictGet stats mac) (dictGet stats info.nexthop)
  match peer with
  | some blk => if blockEmpty blk then info1 else copyMetrics info1 blk
  | none => info1

/-- The merge loop of `build_status`: enrich every route entry in place. -/
def mergeNodes (me : String) (nodes : List (String × NodeRecord))
    (stats : List (String × StationBlock)) : List (String × NodeRecord) :=
  nodes.map fun p => (p.1, mergeOne me stats p.1 p.2)

/-- The published snapshot. -/
structure Snapshot where
  timestamp : Int
  «local» : LocalObj
  nodes : List (String × NodeRecord)
  deriving Repr, DecidableEq

/-- Everything `build_status` observes from the outside world: the `batctl o`
result, the per-interface `iw ... station dump` results, the power-supply
entries, the local MAC determined at startup, and the wall clock at build
start. -/
structure Env where
  batctl : Except Unit String
  iw : String → Except Unit String
  power : List PowerSupply
  localMac : Option String
  time : Int

/-- `EnhancedOGMMonitor.build_status`. -/
def build_status (e : Env) : Snapshot :=
  let nodes := get_batman_nodes e.localMac e.batctl
  let stats := get_wifi_stations e.iw
  let me := pyLower (e.localMac.getD "")
  { timestamp := e.time,
    «local» := build_local_obj e.localMac e.power,
    nodes := mergeNodes me nodes stats }

/-- The fallback regex of `_get_local_mac`:
`link/(?:ether|ieee802\.11)\s+([0-9a-fA-F:]{17})`, leftmost match. -/
def linkMacGo : List Char → Option (List Char)
  | [] => none
  | c :: rest =>
    let attempt : Option (List Char) :=
      if "link/".data.isPrefixOf (c :: rest) then
        let r := (c :: rest).drop 5
        let afterKind : Option (List Char) :=
          if "ether".data.isPrefixOf r then some (r.drop 5)
          else if "ieee802.11".data.isPrefixOf r then some (r.drop 10)
          else none
        match afterKind with
        | some r2 =>
          let sp := r2.takeWhile isPySpace
          if sp.isEmpty then none else
          let mac := (r2.drop sp.length).take 17
          if mac.length = 17 && mac.all isMacChar then some mac else none
        | none => none
      else none
    match attempt with
    | some m => some m
    | none => linkMacGo rest

/-- The candidate interfaces tried by `_get_local_mac`, in priority order. -/
def LOCAL_MAC_IFACES : List String := ["bat0", "mesh0", "wlan1", "wlan0"]

/-- `EnhancedOGMMonitor._get_local_mac`.  `sysAddr iface` is the content of
`/sys/class/net/<iface>/address` (`none` when the file is missing or the read
raises); `ipLink` is the `ip -o link show up` invocation result. -/
def _get_local_mac (sysAddr : String → Option String)
    (ipLink : Except Unit String) : Option String :=
  let fromIfaces : Option String := LOCAL_MAC_IFACES.findSome? fun iface =>
    match sysAddr iface with
    | some content =>
      let mac := pyLower (pyStrip content)
      if mac ≠ "" then some mac else none
    | none => none
  match fromIfaces with
  | some mac => some mac
  | none =>
    match ipLink with
    | .ok out =>
      match linkMacGo out.data with
      | some m => some (pyLower ⟨m⟩)
      | none => none
    | .error _ => none

/-- One invocation made through `EnhancedOGMMonitor._run`:
`subprocess.check_output(cmd, universal_newlines=True, stderr=STDOUT)`.
No `timeout` argument is passed, which the model records explicitly. -/
structure SubprocessCall where
  cmd : List String
  timeout : Option Nat
  deriving Repr, DecidableEq

/-- `EnhancedOGMMonitor._run`: the call it issues for a command. -/
def _run (cmd : List String) : SubprocessCall :=
  { cmd := cmd, timeout := none }

/-- `EnhancedOGMMonitor._iw_cmd`. -/
def _iw_cmd (isRoot : Bool) (iface : String) : List String :=
  if isRoot then ["iw", "dev", iface, "station", "dump"]
  else ["sudo", "-n", "iw", "dev", iface, "station", "dump"]

/-- `EnhancedOGMMonitor._batctl_cmd`. -/
def _batctl_cmd (isRoot : Bool) : List String :=
  if isRoot then ["batctl", "o"] else ["sudo", "-n", "batctl", "o"]

/-- JSON string escaping as `json.dump` performs it on the strings occurring
here (quote and backslash; the monitor's strings contain no control
characters). -/
def jsonEscape (s : String) : String :=
  ⟨s.data.foldr
    (fun c acc =>
      (if c = '"' then ['\\', '"'] else if c = '\\' then ['\\', '\\'] else [c]) ++ acc)
    []⟩

/-- A JSON string literal. -/
def jsonStr (s : String) : String :=
  "\"" ++ jsonEscape s ++ "\""

/-- Decimal expansion digits of `rem/den`, most significant first, stopping
at an exact remainder (Python float repr of the decimal fractions occurring
here). -/
def fracDigitsGo : Nat → Nat → Nat → List Char
  | 0, _, _ => []
  | fuel + 1, rem, den =>
    if rem = 0 then [] else
    Char.ofNat (48 + rem * 10 / den) :: fracDigitsGo fuel (rem * 10 % den) den

/-- Render a non-negative rational the way `repr(float)` renders the decimal
values the parsers produce: integer part, dot, fraction digits (`0` when the
value is integral). -/
def ratReprNN (num den : Nat) : String :=
  let ds := fracDigitsGo 17 (num % den) den
  toString (num / den) ++ "." ++ (if ds.isEmpty then "0" else (⟨ds⟩ : String))

/-- `json.dump`-style rendering of the float fields. -/
def pyFloatRepr (q : Rat) : String :=
  if q < 0 then "-" ++ ratReprNN (-q.num).toNat q.den
  else ratReprNN q.num.toNat q.den

/-- An indentation pad of `n` spaces. -/
def spacesPad (n : Nat) : String :=
  ⟨List.replicate n ' '⟩

/-- Render a JSON object from already-rendered member values, with
`json.dump(..., indent=2)` layout: `ind` is the indentation of the line on
which the object's closing brace sits. -/
def objRender (ind : Nat) (fs : List (String × String)) : String :=
  match fs with
  | [] => "\x7b\x7d"
  | _ =>
    "\x7b\n" ++
    String.intercalate ",\n"
      (fs.map fun kv => spacesPad (ind + 2) ++ jsonStr kv.1 ++ ": " ++ kv.2) ++
    "\n" ++ spacesPad ind ++ "\x7d"

/-- The members of a node record, in dict insertion order; optional fields
appear only when set. -/
def nodeFields (r : NodeRecord) : List (String × String) :=
  [("last_seen", pyFloatRepr r.last_seen),
   ("throughput", pyFloatRepr r.throughput),
   ("nexthop", jsonStr r.nexthop)] ++
  (match r.hostname with | some h => [("hostname", jsonStr h)] | none => []) ++
  (match r.signal_dbm with | some v => [("signal_dbm", pyFloatRepr v)] | none => []) ++
  (match r.rx_packets with | some v => [("rx_packets", toString v)] | none => []) ++
  (match r.rx_drop_misc with | some v => [("rx_drop_misc", toString v)] | none => []) ++
  (match r.tx_packets with | some v => [("tx_packets", toString v)] | none => []) ++
  (match r.tx_retries with | some v => [("tx_retries", toString v)] | none => []) ++
  (match r.tx_failed with | some v => [("tx_failed", toString v)] | none => []) ++
  (match r.tx_bitrate_mbps with | some v => [("tx_bitrate_mbps", pyFloatRepr v)] | none => []) ++
  (match r.rx_bitrate_mbps with | some v => [("rx_bitrate_mbps", pyFloatRepr v)] | none => [])

/-- The members of the `local` object, in dict insertion order. -/
def localFields (l : LocalObj) : List (String × String) :=
  [("mac", jsonStr l.mac),
   ("battery_present", if l.battery_present then "true" else "false")] ++
  (match l.battery_pct with | some v => [("battery_pct", toString v)] | none => []) ++
  [("power_source", jsonStr l.power_source)] ++
  (match l.status with | some s => [("status", jsonStr s)] | none => [])

/-- `json.dump(payload, f, indent=2)` for a snapshot. -/
def renderSnapshot (s : Snapshot) : String :=
  objRender 0
    [("timestamp", toString s.timestamp),
     ("local", objRender 2 (localFields s.«local»)),
     ("nodes", objRender 2 (s.nodes.map fun p => (p.1, objRender 4 (nodeFields p.2))))]

/-- Observable filesystem state around `_write_status_sync`: the destination
file's content and the temporary file's content (`none` = absent).  The
`tempfile.mkstemp` name is fresh and unique, so a single slot describes the
temporary file, absent before the call. -/
structure FsState where
  dest : Option String
  tmp : Option String
  deriving Repr, DecidableEq

/-- Fault injection points inside `_write_status_sync`: each constructor is a
statement that may raise; `atDump n` is a failure after `n` characters of the
payload reached the temporary file. -/
inductive WriteFault where
  | atMakedirs : WriteFault
  | atMkstemp : WriteFault
  | atDump : Nat → WriteFault
  | atFsync : WriteFault
  | atReplace : WriteFault
  deriving Repr, DecidableEq

/-- `os.replace(tmppath, STATUS_FILE)`: atomic rename. -/
def opReplace (s : FsState) : FsState :=
  match s.tmp with
  | some c => { dest := some c, tmp := none }
  | none => s

/-- The `finally` block: remove the temporary file if it still exists (the
inner `try/except` swallows every error, including the unbound `tmppath`
after an `mkstemp` failure). -/
def opCleanup (s : FsState) : FsState :=
  { s with tmp := none }

/-- `EnhancedOGMMonitor._write_status_sync` under fault injection: the list
of observable filesystem states, in order, from the initial state to the
state after the `finally` cleanup and the outer exception handler. -/
def write_status_sync (dest0 : Option String) (payload : String)
    (fault : Option WriteFault) : List FsState :=
  let s0 : FsState := { dest := dest0, tmp := none }
  match fault with
  | some .atMakedirs => [s0, opCleanup s0]
  | some .atMkstemp => [s0, opCleanup s0]
  | some (.atDump n) =>
    let s1 : FsState := { s0 with tmp := some "" }
    let s2 : FsState := { s0 with tmp := some (⟨payload.data.take n⟩ : String) }
    [s0, s1, s2, opCleanup s2]
  | some .atFsync =>
    let s1 : FsState := { s0 with tmp := some "" }
    let s2 : FsState := { s0 with tmp := some payload }
    [s0, s1, s2, opCleanup s2]
  | some .atReplace =>
    let s1 : FsState := { s0 with tmp := some "" }
    let s2 : FsState := { s0 with tmp := some payload }
    [s0, s1, s2, opCleanup s2]
  | none =>
    let s1 : FsState := { s0 with tmp := some "" }
    let s2 : FsState := { s0 with tmp := some payload }
    let s3 := opReplace s2
    [s0, s1, s2, s3, s3]

/-- The state left behind by `_write_status_sync`. -/
def writeFinal (dest0 : Option String) (payload : String)
    (fault : Option WriteFault) : FsState :=
  ((write_status_sync dest0 payload fault).getLast?).getD { dest := dest0, tmp := none }

/-- A well-formed marker line in the spec's sense: it contains the literal
row marker `" * "` and a MAC-shaped token. -/
def wellFormedLine (raw : String) : Bool :=
  containsSub " * ".data (rstripChars raw.data) &&
  (findMac (rstripChars raw.data)).isSome

/-- The originator key a well-formed line contributes: its first MAC-shaped
token, lowercased. -/
def originatorOf (raw : String) : String :=
  match findMac (rstripChars raw.data) with
  | some w => pyLower ⟨w⟩
  | none => ""

/-- The keys contributed by a route-table text, line by line, before
dictionary collapsing. -/
def acceptedMacs (lm : Option String) (text : String) : List String :=
  (pyLines text).filterMap fun raw => (parseOriginatorLine lm raw).map Prod.fst

/-- First-occurrence deduplication, the key order a Python dict ends up
with. -/
def firstDedup (l : List String) : List String :=
  l.foldl (fun acc k => if acc.any (fun x => x = k) then acc else acc ++ [k]) []

/-- Whether an interface's station-dump output makes the interface loop stop
when reached with an empty accumulator: its parse saw a station header and
contributed at least one non-empty block. -/
def ifaceYield (env : String → Except Unit String) (iface : String) : Bool :=
  match env iface with
  | .error _ => false
  | .ok out => (parseIw [] out).2 && !(parseIw [] out).1.isEmpty

/-- The stations an interface contributes when reached with an empty
accumulator. -/
def ifaceStations (env : String → Except Unit String) (iface : String) :
    List (String × StationBlock) :=
  match env iface with
  | .error _ => []
  | .ok out => (parseIw [] out).1

/-- A battery-typed power-supply entry's capacity when it parses as an
integer in `[0, 100]` — the values the spec says `battery_pct` is drawn
from. -/
def validCap (p : PowerSupply) : Option Int :=
  let typ := match p.typ with
    | some s => pyStrip s
    | none => ""
  let t := pyLower typ
  if t = "battery" then
    match p.capacity.bind fun c => pyInt (pyStrip c) with
    | some cap => if 0 ≤ cap && cap ≤ 100 then some cap else none
    | none => none
  else none

/-- Modelled from the spec's words for the refuted reading of the
battery-percentage rule: the first valid capacity in enumeration order. -/
def firstBatteryCap (supplies : List PowerSupply) : Option Int :=
  (supplies.filterMap validCap).head?

/-- Fixture: a route-table line whose text after the final `)` holds two
MAC-shaped tokens. -/
def twoNexthopLine : String :=
  " * aa:bb:cc:dd:ee:ff 1.0s (150) 11:11:11:11:11:11 22:22:22:22:22:22"

/-- Fixture: a route-table text with two well-formed marker lines for the
same originator plus a malformed line. -/
def dupOriginatorText : String :=
  " * aa:bb:cc:dd:ee:ff 1.0s (150) bb:cc:dd:ee:ff:11\nnot a marker line\n * aa:bb:cc:dd:ee:ff 2.0s (90) bb:cc:dd:ee:ff:11"

/-- Fixture: an interface environment where `wlan1` answers with a station
header but no attribute lines, and the other interfaces answer with empty
output. -/
def headerOnlyEnv : String → Except Unit String := fun i =>
  if i = "wlan1" then .ok "Station 00:11:22:33:44:55 (on wlan1)" else .ok ""

/-- Fixture: an interface environment where `wlan1` yields nothing and
`mesh0` yields a complete station block. -/
def meshYieldEnv : String → Except Unit String := fun i =>
  if i = "mesh0" then .ok "Station 00:11:22:33:44:55 (on mesh0)\n  signal: -50 dBm"
  else .ok ""

/-- Fixture: two battery supplies with distinct valid capacities. -/
def twoBatterySupplies : List PowerSupply :=
  [{ typ := some "Battery", capacity := some "30" },
   { typ := some "battery", capacity := some "70" }]

/-- Fixture: an environment with every collector input failed, at a chosen
build time. -/
def bareEnv (t : Int) : Env :=
  { batctl := .error (), iw := fun _ => .error (), power := [], localMac := none, time := t }

/-- Fixture: an environment whose interface command map differs from
`bareEnv`'s only on an interface outside the candidate list. -/
def offListEnv : Env :=
  { batctl := .error (),
    iw := fun i => if i = "eth0" then .ok "Station 11:22:33:44:55:66 (on eth0)" else .error (),
    power := [], localMac := none, time := 0 }

/-- Fixture: route entries and station metrics exercising the nexthop
fallback of the merger. -/
def fallbackNodes : List (String × NodeRecord) :=
  [("aa:bb:cc:dd:ee:ff",
    { last_seen := 1, throughput := 150, nexthop := "bb:cc:dd:ee:ff:11" })]

/-- Fixture: metrics present only under the nexthop MAC. -/
def fallbackStats : List (String × StationBlock) :=
  [("bb:cc:dd:ee:ff:11", { signal_dbm := some (-45), tx_bitrate_mbps := some 65 })]

/-- Fixture: an environment for the detection-failure scenario: no candidate
interface exposes an address and the interface listing holds no link
address, while the route table names a well-formed entry. -/
def noMacEnv : Env :=
  { batctl := .ok " * aa:bb:cc:dd:ee:ff 1.0s (150) bb:cc:dd:ee:ff:11",
    iw := fun _ => .error (), power := [], localMac := _get_local_mac (fun _ => none) (.ok "1: lo: <LOOPBACK,UP> mtu 65536"), time := 0 }

lemma length_pyLower (s : String) : (pyLower s).length = s.length := by
  show (s.data.map Char.toLower).length = s.length
  rw [List.length_map]; rfl

lemma pyLower_mk (l : List Char) : pyLower ⟨l⟩ = ⟨l.map Char.toLower⟩ := rfl

lemma findMac_some {l : List Char} {w : List Char} (h : findMac l = some w) :
    w.length = 17 := by
  induction l with
  | nil => simp [findMac] at h
  | cons c rest ih =>
    rw [findMac] at h
    split at h
    · rename_i hcond
      cases h
      exact of_decide_eq_true (Bool.and_elim_left hcond)
    · exact ih h

lemma findMac_eq_head (l : List Char) : findMac l = (macWindows l).head? := by
  induction l with
  | nil => rfl
  | cons c rest ih =>
    rw [findMac, macWindows]
    split
    · rename_i hcond
      rw [List.head?_append]
      simp [hcond]
    · rename_i hcond
      rw [List.head?_append]
      simp only [Bool.not_eq_true] at hcond
      simp [hcond, ih]

lemma keys_any {α : Type} (d : List (String × α)) (k : String) :
    d.any (fun p => p.1 = k) = (d.map Prod.fst).any (fun x => x = k) := by
  induction d with
  | nil => rfl
  | cons a rest ih => simp only [List.any_cons, List.map_cons, ih]

lemma dictInsert_keys {α : Type} (d : List (String × α)) (k : String) (v : α) :
    (dictInsert d k v).map Prod.fst =
      if (d.map Prod.fst).any (fun x => x = k) then d.map Prod.fst
      else d.map Prod.fst ++ [k] := by
  rw [dictInsert, keys_any]
  split
  · rw [List.map_map]
    apply List.map_congr_left
    intro p _
    by_cases h : p.1 = k
    · simp [h]
    · simp [h]
  · rw [List.map_append]
    rfl

lemma batctl_fold_keys (lm : Option String) (lines : List String) :
    ∀ nodes : List (String × NodeRecord),
      ((lines.foldl (fun nodes raw =>
          match parseOriginatorLine lm raw with
          | none => nodes
          | some (mac, rec) => dictInsert nodes mac rec) nodes).map Prod.fst)
      = (lines.filterMap fun raw => (parseOriginatorLine lm raw).map Prod.fst).foldl
          (fun acc k => if acc.any (fun x => x = k) then acc else acc ++ [k])
          (nodes.map Prod.fst) := by
  induction lines with
  | nil => intro nodes; rfl
  | cons raw rest ih =>
    intro nodes
    rw [List.foldl_cons, List.filterMap_cons]
    cases hp : parseOriginatorLine lm raw with
    | none => simpa using ih nodes
    | some pr =>
      obtain ⟨mac, rec⟩ := pr
      rw [ih (dictInsert nodes mac rec), dictInsert_keys]
      rfl

lemma get_batman_nodes_keys (lm : Option String) (text : String) :
    (get_batman_nodes lm (.ok text)).map Prod.fst = firstDedup (acceptedMacs lm text) := by
  rw [get_batman_nodes, acceptedMacs, firstDedup]
  exact batctl_fold_keys lm (pyLines text) []

lemma mem_firstDedup_aux (l : List String) :
    ∀ (acc : List String) (x : String),
      (x ∈ l.foldl (fun acc k => if acc.any (fun y => y = k) then acc else acc ++ [k]) acc
        ↔ x ∈ acc ∨ x ∈ l) := by
  induction l with
  | nil => intro acc x; simp
  | cons k rest ih =>
    intro acc x
    rw [List.foldl_cons]
    rw [ih]
    by_cases hk : acc.any (fun y => y = k) = true
    · have hkm : k ∈ acc := by
        rcases List.any_eq_true.mp hk with ⟨a, ha, hak⟩
        rcases of_decide_eq_true hak with rfl
        exact ha
      rw [if_pos hk]
      constructor
      · rintro (hx | hx)
        · exact Or.inl hx
        · exact Or.inr (List.mem_cons_of_mem _ hx)
      · rintro (hx | hx)
        · exact Or.inl hx
        · rcases List.mem_cons.mp hx with rfl | hx
          · exact Or.inl hkm
          · exact Or.inr hx
    · rw [if_neg hk]
      simp [List.mem_append, List.mem_cons]
      tauto

lemma mem_firstDedup {l : List String} {x : String} :
    x ∈ firstDedup l ↔ x ∈ l := by
  rw [firstDedup, mem_firstDedup_aux]
  simp

lemma parseOriginatorLine_some {lm : Option String} {raw : String}
    {mac : String} {rec : NodeRecord}
    (h : parseOriginatorLine lm raw = some (mac, rec)) :
    ∃ w, findMac (rstripChars raw.data) = some w ∧
      mac = pyLower ⟨w⟩ ∧
      (macTruthy lm && decide (mac = pyLower (lm.getD ""))) = false ∧
      rec.nexthop = (match findMac (afterLastParen (rstripChars raw.data)) with
        | some v => pyLower ⟨v⟩
        | none => "") := by
  simp only [parseOriginatorLine] at h
  split at h
  · exact absurd h (by simp)
  · split at h
    · exact absurd h (by simp)
    · rename_i w hw
      split at h
      · exact absurd h (by simp)
      · rename_i hcond
        rw [Option.some_inj, Prod.mk.injEq] at h
        obtain ⟨hmac, hrec⟩ := h
        refine ⟨w, hw, hmac.symm, ?_, ?_⟩
        · rw [← hmac]
          cases hb : (macTruthy lm && decide (pyLower ⟨w⟩ = pyLower (lm.getD ""))) with
          | true => exact absurd hb hcond
          | false => rfl
        · rw [← hrec]

lemma parseOriginatorLine_localNone {raw : String} (hwf : wellFormedLine raw = true) :
    (parseOriginatorLine none raw).map Prod.fst = some (originatorOf raw) := by
  rw [wellFormedLine, Bool.and_eq_true] at hwf
  obtain ⟨hmark, hmac⟩ := hwf
  rw [Option.isSome_iff_exists] at hmac
  obtain ⟨w, hw⟩ := hmac
  simp [parseOriginatorLine, originatorOf, hmark, hw, macTruthy]

lemma acceptedMac_prop {lm : Option String} {raw mac : String} {rec : NodeRecord}
    (h : parseOriginatorLine lm raw = some (mac, rec)) :
    mac.length = 17 ∧ ∀ m, lm = some m → m ≠ "" → mac ≠ pyLower m := by
  obtain ⟨w, hw, hmac, hcond, -⟩ := parseOriginatorLine_some h
  constructor
  · rw [hmac]
    have h1 : (pyLower ⟨w⟩).length = (⟨w⟩ : String).length := length_pyLower _
    have h2 : (⟨w⟩ : String).length = w.length := rfl
    rw [h1, h2]
    exact findMac_some hw
  · intro m hm hne heq
    subst hm
    have htr : macTruthy (some m) = true := by
      simp only [macTruthy, Bool.not_eq_true']
      cases hbe : m.isEmpty with
      | false => rfl
      | true => exact absurd ((String.isEmpty_iff m).mp hbe) hne
    rw [htr, Bool.true_and] at hcond
    exact (of_decide_eq_false hcond) heq

lemma mergeNodes_keys (me : String) (nodes : List (String × NodeRecord))
    (stats : List (String × StationBlock)) :
    (mergeNodes me nodes stats).map Prod.fst = nodes.map Prod.fst := by
  rw [mergeNodes, List.map_map]
  apply List.map_congr_left
  intro p _
  rfl

lemma find?_map_keyfun {α β : Type} (f : String → α → β)
    (l : List (String × α)) (k : String) :
    ((l.map fun p => (p.1, f p.1 p.2)).find? fun p => p.1 = k)
      = (l.find? fun p => p.1 = k).map (fun p => (p.1, f p.1 p.2)) := by
  induction l with
  | nil => rfl
  | cons a rest ih =>
    rw [List.map_cons, List.find?_cons, List.find?_cons]
    cases hd : (decide (a.1 = k)) with
    | true =>
      simp only [hd]
      rfl
    | false =>
      simp only [hd]
      exact ih

lemma dictGet_mergeNodes (me : String) (nodes : List (String × NodeRecord))
    (stats : List (String × StationBlock)) (k : String) :
    dictGet (mergeNodes me nodes stats) k
      = (dictGet nodes k).map (fun info => mergeOne me stats k info) := by
  rw [mergeNodes, dictGet, find?_map_keyfun]
  cases hf : (nodes.find? fun p => p.1 = k) with
  | none =>
    rw [dictGet, hf]
    rfl
  | some a =>
    have hpa := List.find?_some hf
    have hak : a.1 = k := of_decide_eq_true hpa
    rw [dictGet, hf, ← hak]
    rfl

lemma iwLine_saw_mono (st : IwState) (raw : String) (h : st.saw_any = true) :
    (iwLine st raw).saw_any = true := by
  simp only [iwLine]
  split
  · rfl
  · split
    · exact h
    · exact h

lemma iwFold_saw_mono (lines : List String) :
    ∀ st : IwState, st.saw_any = true → (lines.foldl iwLine st).saw_any = true := by
  induction lines with
  | nil => intro st h; exact h
  | cons raw rest ih =>
    intro st h
    rw [List.foldl_cons]
    exact ih _ (iwLine_saw_mono st raw h)

lemma iwFold_saw_false (lines : List String) :
    ∀ st : IwState, st.current = none →
      (lines.foldl iwLine st).saw_any = false → lines.foldl iwLine st = st := by
  induction lines with
  | nil => intro st _ _; rfl
  | cons raw rest ih =>
    intro st hcur hfin
    rw [List.foldl_cons] at hfin ⊢
    cases hline : stationHeaderGo none (stripChars raw.data) with
    | some mac =>
      exfalso
      have hstep : (iwLine st raw).saw_any = true := by
        simp only [iwLine, hline]
      rw [iwFold_saw_mono rest _ hstep] at hfin
      exact Bool.noConfusion hfin
    | none =>
      have hstep : iwLine st raw = st := by
        simp only [iwLine, hline, hcur]
      rw [hstep] at hfin ⊢
      exact ih st hcur hfin

lemma iwFlush_saw (st : IwState) : (iwFlush st).saw_any = st.saw_any := by
  rw [iwFlush]
  split
  · split
    · rfl
    · rfl
  · rfl

lemma parseIw_not_yield (out : String)
    (h : ((parseIw [] out).2 && !(parseIw [] out).1.isEmpty) = false) :
    (parseIw [] out).1 = [] := by
  by_cases hie : (parseIw [] out).1 = []
  · exact hie
  · exfalso
    have hne : (parseIw [] out).1.isEmpty = false := by
      cases hl : (parseIw [] out).1 with
      | nil => exact absurd hl hie
      | cons a t => rfl
    have hs : (parseIw [] out).2 = false := by
      cases hs2 : (parseIw [] out).2 with
      | false => rfl
      | true =>
        rw [hs2, hne] at h
        exact Bool.noConfusion h
    apply hie
    have hsaw : ((pyLines out).foldl iwLine
        { stations := [], current := none, block := {}, saw_any := false }).saw_any = false := by
      simp only [parseIw] at hs
      rw [iwFlush_saw] at hs
      exact hs
    have hfold := iwFold_saw_false (pyLines out)
      { stations := [], current := none, block := {}, saw_any := false } rfl hsaw
    simp only [parseIw, hfold]
    rfl

lemma iwLoop_congr (ifaces : List String) (env1 env2 : String → Except Unit String)
    (h : ∀ i ∈ ifaces, env1 i = env2 i) :
    ∀ s0, iwLoop ifaces env1 s0 = iwLoop ifaces env2 s0 := by
  induction ifaces with
  | nil => intro s0; rfl
  | cons i rest ih =>
    intro s0
    have hi : env1 i = env2 i := h i (List.mem_cons_self i rest)
    have h2 : ∀ x ∈ rest, env1 x = env2 x := fun x hx => h x (List.mem_cons_of_mem i hx)
    rw [iwLoop, iwLoop, ← hi]
    cases env1 i with
    | error u => simp only [ih h2]
    | ok out => simp only [ih h2]

lemma powerStep_pct (st : PowerScan) (p : PowerSupply) :
    (powerStep st p).info.battery_pct =
      match validCap p with
      | some v => some v
      | none => st.info.battery_pct := by
  have hinfo1 : (match p.status with
      | some s => if pyStrip s ≠ "" then { st.info with status := some (pyStrip s) } else st.info
      | none => st.info).battery_pct = st.info.battery_pct := by
    cases p.status with
    | none => rfl
    | some s =>
      show (if pyStrip s ≠ ""
        then ({ st.info with status := some (pyStrip s) } : PowerInfo)
        else st.info).battery_pct = st.info.battery_pct
      by_cases hs : pyStrip s ≠ ""
      · rw [if_pos hs]
      · rw [if_neg hs]
  by_cases hb : pyLower (match p.typ with | some s => pyStrip s | none => "") = "battery"
  · simp only [powerStep, validCap, if_pos hb]
    cases hc : p.capacity.bind (fun c => pyInt (pyStrip c)) with
    | none =>
      simp only [hc]
      simpa using hinfo1
    | some cap =>
      cases hr : (decide (0 ≤ cap) && decide (cap ≤ 100)) with
      | true =>
        simp only [hc, hr, if_true]
      | false =>
        simp only [hc, hr, Bool.false_eq_true, if_false]
        simpa using hinfo1
  · simp only [powerStep, validCap, if_neg hb]
    split
    · simpa using hinfo1
    · simpa using hinfo1

lemma getLast?_cons_eq {α : Type} (a : α) (t : List α) :
    (a :: t).getLast? = match t.getLast? with
      | some w => some w
      | none => some a := by
  cases t with
  | nil => rfl
  | cons b t2 =>
    rw [List.getLast?_cons_cons]
    cases hl : (b :: t2).getLast? with
    | some w => rfl
    | none =>
      exfalso
      have hne : (b :: t2) ≠ [] := by simp
      have h2 := List.getLast?_isSome.mpr hne
      rw [hl] at h2
      exact Bool.noConfusion h2

lemma power_fold_pct (supplies : List PowerSupply) :
    ∀ st : PowerScan,
      (supplies.foldl powerStep st).info.battery_pct
        = match (supplies.filterMap validCap).getLast? with
          | some v => some v
          | none => st.info.battery_pct := by
  induction supplies with
  | nil => intro st; rfl
  | cons p rest ih =>
    intro st
    rw [List.foldl_cons, List.filterMap_cons, ih]
    cases hv : validCap p with
    | none =>
      simp only [hv]
      cases hgl : (rest.filterMap validCap).getLast? with
      | some w => simp [hgl]
      | none => simp [hgl, powerStep_pct, hv]
    | some v =>
      simp only [hv]
      rw [getLast?_cons_eq]
      cases hgl : (rest.filterMap validCap).getLast? with
      | some w => simp [hgl]
      | none => simp [hgl, powerStep_pct, hv]

lemma read_power_info_pct (supplies : List PowerSupply) :
    (read_power_info supplies).battery_pct = (supplies.filterMap validCap).getLast? := by
  have h := power_fold_pct supplies
    { info := { battery_pct := none, power_source := "unknown", status := none,
                battery_present := false },
      has_batt := false, has_ext := false }
  simp only [read_power_info]
  rw [h]
  cases (supplies.filterMap validCap).getLast? with
  | some v => rfl
  | none => rfl

lemma iwLoop_first_yield (env : String → Except Unit String) :
    ∀ (pre : List String) (i : String) (post : List String),
      (∀ j ∈ pre, ifaceYield env j = false) → ifaceYield env i = true →
      iwLoop (pre ++ i :: post) env [] = (ifaceStations env i, pre ++ [i]) := by
  intro pre
  induction pre with
  | nil =>
    intro i post _ hi
    rw [List.nil_append, iwLoop]
    cases he : env i with
    | error u =>
      rw [ifaceYield, he] at hi
      exact Bool.noConfusion hi
    | ok out =>
      simp only [ifaceYield, he] at hi
      simp [ifaceStations, he, hi]
  | cons j pre ih =>
    intro i post hpre hi
    have hj : ifaceYield env j = false := hpre j (List.mem_cons_self j pre)
    have hpre2 : ∀ x ∈ pre, ifaceYield env x = false :=
      fun x hx => hpre x (List.mem_cons_of_mem j hx)
    rw [List.cons_append, iwLoop]
    cases he : env j with
    | error u =>
      simp [ih i post hpre2 hi]
    | ok out =>
      simp only [ifaceYield, he] at hj
      have hz := parseIw_not_yield out hj
      simp [hj, hz, ih i post hpre2 hi]

lemma mergeOne_eq (me : String) (stats : List (String × StationBlock))
    (mac : String) (info : NodeRecord) :
    mergeOne me stats mac info =
      match statsOr (dictGet stats mac) (dictGet stats info.nexthop) with
      | some blk => if blockEmpty blk then info else copyMetrics info blk
      | none => info := by
  simp only [mergeOne, dictGet, List.find?_nil, Option.map_none', Option.isSome_none,
    Bool.false_and, Bool.false_eq_true, if_false]

lemma blockEmpty_fields {b : StationBlock} (h : blockEmpty b = true) :
    b.signal_dbm = none ∧ b.rx_packets = none ∧ b.rx_drop_misc = none ∧
    b.tx_packets = none ∧ b.tx_retries = none ∧ b.tx_failed = none ∧
    b.tx_bitrate_mbps = none ∧ b.rx_bitrate_mbps = none := by
  simp only [blockEmpty, Bool.and_eq_true, decide_eq_true_eq] at h
  tauto

lemma copyMetrics_route (info : NodeRecord) (b : StationBlock) :
    (copyMetrics info b).last_seen = info.last_seen ∧
    (copyMetrics info b).throughput = info.throughput ∧
    (copyMetrics info b).nexthop = info.nexthop := by
  exact ⟨rfl, rfl, rfl⟩

lemma mergeOne_route_fields (me : String) (stats : List (String × StationBlock))
    (mac : String) (info : NodeRecord) :
    (mergeOne me stats mac info).last_seen = info.last_seen ∧
    (mergeOne me stats mac info).throughput = info.throughput ∧
    (mergeOne me stats mac info).nexthop = info.nexthop := by
  rw [mergeOne_eq]
  cases statsOr (dictGet stats mac) (dictGet stats info.nexthop) with
  | none => exact ⟨rfl, rfl, rfl⟩
  | some blk =>
    by_cases hb : blockEmpty blk = true
    · simp [hb]
    · simp only [Bool.not_eq_true] at hb
      simp [hb, copyMetrics]

/-- Claim C1: the writer serializes to a uniquely-named temporary file in the
destination directory, syncs it, then atomically replaces the destination; if
any step before (or at) the atomic replace raises, the destination content is
unchanged and the temporary file is removed; at no observable point does the
destination hold a partial write. -/
theorem claim_C1_atomic_publish (dest0 : Option String) (payload : String)
    (fault : Option WriteFault) :
    (∀ s ∈ write_status_sync dest0 payload fault, s.dest = dest0 ∨ s.dest = some payload) ∧
    (fault.isSome = true →
      writeFinal dest0 payload fault = { dest := dest0, tmp := none }) ∧
    (fault = none →
      writeFinal dest0 payload fault = { dest := some payload, tmp := none }) := by
  cases fault with
  | none =>
    refine ⟨?_, ?_, fun _ => rfl⟩
    · intro s hs
      simp only [write_status_sync, List.mem_cons, List.not_mem_nil, or_false] at hs
      rcases hs with rfl | rfl | rfl | rfl | rfl
      · exact Or.inl rfl
      · exact Or.inl rfl
      · exact Or.inl rfl
      · exact Or.inr rfl
      · exact Or.inr rfl
    · intro h
      simp at h
  | some f =>
    cases f with
    | atMakedirs =>
      refine ⟨?_, fun _ => rfl, fun h => Option.noConfusion h⟩
      intro s hs
      simp only [write_status_sync, List.mem_cons, List.not_mem_nil, or_false] at hs
      rcases hs with rfl | rfl
      · exact Or.inl rfl
      · exact Or.inl rfl
    | atMkstemp =>
      refine ⟨?_, fun _ => rfl, fun h => Option.noConfusion h⟩
      intro s hs
      simp only [write_status_sync, List.mem_cons, List.not_mem_nil, or_false] at hs
      rcases hs with rfl | rfl
      · exact Or.inl rfl
      · exact Or.inl rfl
    | atDump n =>
      refine ⟨?_, fun _ => rfl, fun h => Option.noConfusion h⟩
      intro s hs
      simp only [write_status_sync, List.mem_cons, List.not_mem_nil, or_false] at hs
      rcases hs with rfl | rfl | rfl | rfl
      · exact Or.inl rfl
      · exact Or.inl rfl
      · exact Or.inl rfl
      · exact Or.inl rfl
    | atFsync =>
      refine ⟨?_, fun _ => rfl, fun h => Option.noConfusion h⟩
      intro s hs
      simp only [write_status_sync, List.mem_cons, List.not_mem_nil, or_false] at hs
      rcases hs with rfl | rfl | rfl | rfl
      · exact Or.inl rfl
      · exact Or.inl rfl
      · exact Or.inl rfl
      · exact Or.inl rfl
    | atReplace =>
      refine ⟨?_, fun _ => rfl, fun h => Option.noConfusion h⟩
      intro s hs
      simp only [write_status_sync, List.mem_cons, List.not_mem_nil, or_false] at hs
      rcases hs with rfl | rfl | rfl | rfl
      · exact Or.inl rfl
      · exact Or.inl rfl
      · exact Or.inl rfl
      · exact Or.inl rfl

/-- Claim C1 witness: a faulted write at a concrete input leaves the old
snapshot in place with the temporary file removed. -/
theorem claim_C1_witness :
    (∀ s ∈ write_status_sync (some "old") "new" (some (.atDump 1)),
      s.dest = some "old" ∨ s.dest = some "new") ∧
    writeFinal (some "old") "new" (some (.atDump 1)) = { dest := some "old", tmp := none } :=
  ⟨(claim_C1_atomic_publish (some "old") "new" (some (.atDump 1))).1,
   (claim_C1_atomic_publish (some "old") "new" (some (.atDump 1))).2.1 (by decide)⟩

/-- Claim C2: for every environment (hence every route-table text), the
snapshot's own `local.mac` never appears among the keys of `nodes`, even when
the route table listed the local MAC. -/
theorem claim_C2_local_not_in_nodes (e : Env) :
    (build_status e).«local».mac ∉ ((build_status e).nodes.map Prod.fst) := by
  intro hmem
  simp only [build_status] at hmem
  rw [mergeNodes_keys] at hmem
  cases hb : e.batctl with
  | error u =>
    rw [hb] at hmem
    simp [get_batman_nodes] at hmem
  | ok text =>
    rw [hb, get_batman_nodes_keys] at hmem
    have hmem2 := mem_firstDedup.mp hmem
    rw [acceptedMacs] at hmem2
    obtain ⟨raw, -, hsome⟩ := List.mem_filterMap.mp hmem2
    cases hp : parseOriginatorLine e.localMac raw with
    | none =>
      rw [hp] at hsome
      exact Option.noConfusion hsome
    | some pr =>
      obtain ⟨mac1, rec1⟩ := pr
      rw [hp] at hsome
      have hfst : mac1 = (build_local_obj e.localMac e.power).mac := by
        simpa using hsome
      obtain ⟨hlen, hnl⟩ := acceptedMac_prop hp
      cases hlm : e.localMac with
      | none =>
        rw [hlm] at hfst
        have hmac0 : (build_local_obj none e.power).mac = "" := rfl
        rw [hmac0] at hfst
        rw [hfst] at hlen
        exact absurd hlen (by decide)
      | some m =>
        rw [hlm] at hfst
        by_cases hm : m = ""
        · subst hm
          have hmac0 : (build_local_obj (some "") e.power).mac = "" := rfl
          rw [hmac0] at hfst
          rw [hfst] at hlen
          exact absurd hlen (by decide)
        · have hbm : (build_local_obj (some m) e.power).mac = pyLower m := rfl
          rw [hbm] at hfst
          exact hnl m hlm hm hfst

/-- Claim C2 witness: the property at a concrete environment. -/
theorem claim_C2_witness :
    (build_status (bareEnv 0)).«local».mac ∉
      ((build_status (bareEnv 0)).nodes.map Prod.fst) :=
  claim_C2_local_not_in_nodes (bareEnv 0)

/-- Claim C3 counterexample: on a marker line with two MAC-shaped tokens
after the final closing parenthesis, the code takes the FIRST one as
`nexthop`, while the claim's "last MAC-shaped token" is the other one. -/
theorem claim_C3_counterexample :
    (parseOriginatorLine none twoNexthopLine).map (fun p => p.2.nexthop)
        = some "11:11:11:11:11:11" ∧
    (macWindows (afterLastParen (rstripChars twoNexthopLine.data))).getLast?
        = some "22:22:22:22:22:22".data ∧
    ("11:11:11:11:11:11" : String) ≠ "22:22:22:22:22:22" :=
  ⟨by decide, by decide, by decide⟩

/-- Claim C3 amended: for every accepted route-table line, the parsed
`nexthop` equals the FIRST (not last) MAC-shaped token occurring after the
line's final closing parenthesis, lowercased, and is the empty string when no
MAC-shaped token occurs there. -/
theorem claim_C3_amended (lm : Option String) (raw mac : String) (rec : NodeRecord)
    (h : parseOriginatorLine lm raw = some (mac, rec)) :
    rec.nexthop =
      (match (macWindows (afterLastParen (rstripChars raw.data))).head? with
        | some w => pyLower ⟨w⟩
        | none => "") := by
  obtain ⟨w, -, -, -, hnx⟩ := parseOriginatorLine_some h
  rw [hnx, findMac_eq_head]

/-- Claim C3 witness: the amended statement at the concrete two-token line. -/
theorem claim_C3_witness :
    ((parseOriginatorLine none twoNexthopLine).map fun p => p.2.nexthop)
      = some (match (macWindows (afterLastParen (rstripChars twoNexthopLine.data))).head? with
          | some w => pyLower ⟨w⟩
          | none => "") := by
  cases hp : parseOriginatorLine none twoNexthopLine with
  | none => exact absurd hp (by decide)
  | some pr =>
    obtain ⟨m, r⟩ := pr
    rw [Option.map_some']
    exact congrArg some (claim_C3_amended none twoNexthopLine m r hp)

/-- Claim C4 counterexample: the route-table invocation issued through `_run`
carries no timeout (`subprocess.check_output` is called without one), so the
claim's "every invocation carries a bounded timeout" is false. -/
theorem claim_C4_counterexample : (_run (_batctl_cmd true)).timeout = none := rfl

/-- Claim C4 amended: the collectors' external command invocations carry NO
timeout; an invocation failure (a raised exception) is handled by returning
an empty map for the route-table source, by skipping the failed interface in
the link-metrics loop, and the cycle continues. -/
theorem claim_C4_amended :
    (∀ cmd : List String, (_run cmd).timeout = none) ∧
    (∀ lm : Option String, get_batman_nodes lm (.error ()) = []) ∧
    (∀ (env : String → Except Unit String) (i : String) (rest : List String)
        (s0 : List (String × StationBlock)), env i = .error () →
      iwLoop (i :: rest) env s0
        = ((iwLoop rest env s0).1, i :: (iwLoop rest env s0).2)) := by
  refine ⟨fun _ => rfl, fun _ => rfl, ?_⟩
  intro env i rest s0 he
  rw [iwLoop, he]

/-- Claim C4 witness: the amended statement at concrete inputs. -/
theorem claim_C4_witness :
    get_batman_nodes none (.error ()) = [] ∧
    iwLoop ["wlan1"] (fun _ => .error ()) []
      = ((iwLoop [] (fun _ => .error ()) []).1,
         "wlan1" :: (iwLoop [] (fun _ => .error ()) []).2) :=
  ⟨claim_C4_amended.2.1 none,
   claim_C4_amended.2.2 (fun _ => .error ()) "wlan1" [] [] rfl⟩

/-- Claim C5 counterexample: `wlan1` yields a station block (a header line
with a MAC-shaped token), yet `mesh0` and `wlan0` are still queried, because
the block carried no recognized attribute and produced no station entry. -/
theorem claim_C5_counterexample :
    headerOnlyEnv "wlan1" = .ok "Station 00:11:22:33:44:55 (on wlan1)" ∧
    (parseIw [] "Station 00:11:22:33:44:55 (on wlan1)").2 = true ∧
    (iwLoop WIFI_IFACES headerOnlyEnv []).2 = ["wlan1", "mesh0", "wlan0"] :=
  ⟨rfl, by decide, by decide⟩

/-- Claim C5 amended: the collector tries interfaces in the fixed priority
order and stops at the first interface whose output yields at least one
station block with at least one recognized attribute (a non-empty stations
map); once such an interface is found, later interfaces are not queried and
its parse result is the collector's result. -/
theorem claim_C5_amended (env : String → Except Unit String) (pre : List String)
    (i : String) (post : List String)
    (hsplit : WIFI_IFACES = pre ++ i :: post)
    (hpre : ∀ j ∈ pre, ifaceYield env j = false)
    (hi : ifaceYield env i = true) :
    get_wifi_stations env = ifaceStations env i ∧
    (iwLoop WIFI_IFACES env []).2 = pre ++ [i] := by
  have h := iwLoop_first_yield env pre i post hpre hi
  constructor
  · rw [get_wifi_stations, hsplit, h]
  · rw [hsplit, h]

/-- Claim C5 witness: with `wlan1` yielding nothing and `mesh0` yielding a
station block, the loop stops after `mesh0` and `wlan0` is not queried. -/
theorem claim_C5_witness :
    get_wifi_stations meshYieldEnv = ifaceStations meshYieldEnv "mesh0" ∧
    (iwLoop WIFI_IFACES meshYieldEnv []).2 = ["wlan1", "mesh0"] :=
  claim_C5_amended meshYieldEnv ["wlan1"] "mesh0" ["wlan0"] rfl
    (by
      intro j hj
      rcases List.mem_singleton.mp hj with rfl
      decide)
    (by decide)

/-- Claim C6: merge fallback — a route entry `Y` without its own metrics
inherits the metric fields of its nexthop `X`; and in every merge, the
route-table fields `last_seen`, `throughput` and `nexthop` are never
overwritten. -/
theorem claim_C6_merge_fallback (me Y X : String)
    (nodes : List (String × NodeRecord)) (stats : List (String × StationBlock))
    (infoY : NodeRecord) (bX : StationBlock)
    (hY : dictGet nodes Y = some infoY) (hnx : infoY.nexthop = X)
    (hsY : dictGet stats Y = none) (hsX : dictGet stats X = some bX) :
    (∃ r, dictGet (mergeNodes me nodes stats) Y = some r ∧
      r.last_seen = infoY.last_seen ∧ r.throughput = infoY.throughput ∧
      r.nexthop = infoY.nexthop ∧
      (∀ v, bX.signal_dbm = some v → r.signal_dbm = some v) ∧
      (∀ v, bX.rx_packets = some v → r.rx_packets = some v) ∧
      (∀ v, bX.rx_drop_misc = some v → r.rx_drop_misc = some v) ∧
      (∀ v, bX.tx_packets = some v → r.tx_packets = some v) ∧
      (∀ v, bX.tx_retries = some v → r.tx_retries = some v) ∧
      (∀ v, bX.tx_failed = some v → r.tx_failed = some v) ∧
      (∀ v, bX.tx_bitrate_mbps = some v → r.tx_bitrate_mbps = some v) ∧
      (∀ v, bX.rx_bitrate_mbps = some v → r.rx_bitrate_mbps = some v)) ∧
    (∀ k info, dictGet nodes k = some info →
      ∃ r, dictGet (mergeNodes me nodes stats) k = some r ∧
        r.last_seen = info.last_seen ∧ r.throughput = info.throughput ∧
        r.nexthop = info.nexthop) := by
  have hform : mergeOne me stats Y infoY =
      if blockEmpty bX then infoY else copyMetrics infoY bX := by
    rw [mergeOne_eq, hnx, hsY, hsX]
    rfl
  have hcopy : mergeOne me stats Y infoY = copyMetrics infoY bX ∨
      (blockEmpty bX = true ∧ mergeOne me stats Y infoY = infoY) := by
    rw [hform]
    by_cases hbe : blockEmpty bX = true
    · exact Or.inr ⟨hbe, if_pos hbe⟩
    · exact Or.inl (if_neg hbe)
  obtain ⟨hr1, hr2, hr3⟩ := mergeOne_route_fields me stats Y infoY
  constructor
  · refine ⟨mergeOne me stats Y infoY, ?_, hr1, hr2, hr3, ?_, ?_, ?_, ?_, ?_, ?_, ?_, ?_⟩
    · rw [dictGet_mergeNodes, hY]
      rfl
    · intro v hv
      rcases hcopy with hc | ⟨hbe, -⟩
      · rw [hc]
        simp [copyMetrics, hv]
      · rw [(blockEmpty_fields hbe).1] at hv
        exact Option.noConfusion hv
    · intro v hv
      rcases hcopy with hc | ⟨hbe, -⟩
      · rw [hc]
        simp [copyMetrics, hv]
      · rw [(blockEmpty_fields hbe).2.1] at hv
        exact Option.noConfusion hv
    · intro v hv
      rcases hcopy with hc | ⟨hbe, -⟩
      · rw [hc]
        simp [copyMetrics, hv]
      · rw [(blockEmpty_fields hbe).2.2.1] at hv
        exact Option.noConfusion hv
    · intro v hv
      rcases hcopy with hc | ⟨hbe, -⟩
      · rw [hc]
        simp [copyMetrics, hv]
      · rw [(blockEmpty_fields hbe).2.2.2.1] at hv
        exact Option.noConfusion hv
    · intro v hv
      rcases hcopy with hc | ⟨hbe, -⟩
      · rw [hc]
        simp [copyMetrics, hv]
      · rw [(blockEmpty_fields hbe).2.2.2.2.1] at hv
        exact Option.noConfusion hv
    · intro v hv
      rcases hcopy with hc | ⟨hbe, -⟩
      · rw [hc]
        simp [copyMetrics, hv]
      · rw [(blockEmpty_fields hbe).2.2.2.2.2.1] at hv
        exact Option.noConfusion hv
    · intro v hv
      rcases hcopy with hc | ⟨hbe, -⟩
      · rw [hc]
        simp [copyMetrics, hv]
      · rw [(blockEmpty_fields hbe).2.2.2.2.2.2.1] at hv
        exact Option.noConfusion hv
    · intro v hv
      rcases hcopy with hc | ⟨hbe, -⟩
      · rw [hc]
        simp [copyMetrics, hv]
      · rw [(blockEmpty_fields hbe).2.2.2.2.2.2.2] at hv
        exact Option.noConfusion hv
  · intro k info hk
    obtain ⟨h1, h2, h3⟩ := mergeOne_route_fields me stats k info
    refine ⟨mergeOne me stats k info, ?_, h1, h2, h3⟩
    rw [dictGet_mergeNodes, hk]
    rfl

/-- Claim C6 witness: nexthop fallback at concrete inputs. -/
theorem claim_C6_witness :
    ∃ r, dictGet (mergeNodes "" fallbackNodes fallbackStats) "aa:bb:cc:dd:ee:ff" = some r ∧
      r.last_seen = 1 ∧ r.throughput = 150 ∧ r.nexthop = "bb:cc:dd:ee:ff:11" ∧
      r.signal_dbm = some (-45) := by
  obtain ⟨⟨r, hr, h1, h2, h3, hsig, -⟩, -⟩ :=
    claim_C6_merge_fallback "" "aa:bb:cc:dd:ee:ff" "bb:cc:dd:ee:ff:11"
      fallbackNodes fallbackStats
      { last_seen := 1, throughput := 150, nexthop := "bb:cc:dd:ee:ff:11" }
      { signal_dbm := some (-45), tx_bitrate_mbps := some 65 }
      (by decide) rfl (by decide) (by decide)
  exact ⟨r, hr, h1, h2, h3, hsig (-45) rfl⟩

/-- Claim C7 counterexample: a text with two well-formed marker lines (none
matching the local MAC) yields one entry, not two — duplicate originators
collapse in the dict. -/
theorem claim_C7_counterexample :
    (pyLines dupOriginatorText).countP (fun raw => wellFormedLine raw) = 2 ∧
    (∀ raw ∈ pyLines dupOriginatorText, originatorOf raw ≠ "ff:ff:ff:ff:ff:ff") ∧
    (get_batman_nodes (some "ff:ff:ff:ff:ff:ff") (.ok dupOriginatorText)).length = 1 :=
  ⟨by decide, by decide, by decide⟩

/-- Claim C7 amended: for any route-table text, the parser's keys are exactly
the first-occurrence deduplication of the accepted originator MACs (marker
line, first MAC-shaped token, self-references excluded); in particular the
entry count is the number of DISTINCT accepted originators, and
malformed/non-marker lines contribute nothing. -/
theorem claim_C7_amended (lm : Option String) (text : String) :
    (get_batman_nodes lm (.ok text)).map Prod.fst = firstDedup (acceptedMacs lm text) ∧
    (get_batman_nodes lm (.ok text)).length = (firstDedup (acceptedMacs lm text)).length := by
  have h := get_batman_nodes_keys lm text
  exact ⟨h, by rw [← h, List.length_map]⟩

/-- Claim C8 counterexample: with two battery sources of capacities 30 and
70, the reported percentage is 70 (the LAST valid value), not the first. -/
theorem claim_C8_counterexample :
    firstBatteryCap twoBatterySupplies = some 30 ∧
    (read_power_info twoBatterySupplies).battery_pct = some 70 ∧
    (30 : Int) ≠ 70 :=
  ⟨by decide, by decide, by decide⟩

/-- Claim C8 amended: `battery_pct` equals the LAST capacity value in
enumeration order among battery-typed sources whose capacity parses as an
integer in `[0, 100]` (absent when there is none). -/
theorem claim_C8_amended (supplies : List PowerSupply) :
    (read_power_info supplies).battery_pct = (supplies.filterMap validCap).getLast? :=
  read_power_info_pct supplies

/-- Claim C9 counterexample: two builds from identical route-table,
link-metrics, identity and power inputs, but at different wall-clock
seconds, serialize to different bytes — the timestamp is an input too. -/
theorem claim_C9_counterexample :
    renderSnapshot (build_status (bareEnv 0)) ≠ renderSnapshot (build_status (bareEnv 1)) := by
  decide

/-- Claim C9 amended: with the build timestamp included among the inputs, the
serialized snapshot is a pure function of (route-table output, link-metrics
outputs on the candidate interfaces, power supplies, local identity,
timestamp): two environments agreeing on these yield byte-identical JSON,
with the stable field order fixed by the renderer. -/
theorem claim_C9_amended (e1 e2 : Env)
    (hb : e1.batctl = e2.batctl)
    (hw : ∀ i ∈ WIFI_IFACES, e1.iw i = e2.iw i)
    (hp : e1.power = e2.power)
    (hm : e1.localMac = e2.localMac)
    (ht : e1.time = e2.time) :
    renderSnapshot (build_status e1) = renderSnapshot (build_status e2) := by
  have hsame : build_status e1 = build_status e2 := by
    simp only [build_status]
    rw [hb, hp, hm, ht, get_wifi_stations, get_wifi_stations,
      iwLoop_congr WIFI_IFACES e1.iw e2.iw hw []]
  rw [hsame]

/-- Claim C9 witness: two concrete environments differing only in the
command map outside the candidate interfaces produce identical bytes. -/
theorem claim_C9_witness :
    renderSnapshot (build_status (bareEnv 0)) = renderSnapshot (build_status offListEnv) :=
  claim_C9_amended (bareEnv 0) offListEnv rfl
    (by
      intro i hi
      fin_cases hi <;> rfl)
    rfl rfl rfl

/-- Claim C10: when local-MAC detection fails entirely (no candidate
interface exposes a non-empty address and the fallback listing yields no link
address), the local MAC is `none`, the snapshot's `local.mac` is the empty
string, and no route-table entry is excluded as a self-reference: every
well-formed marker line's originator is a key of `nodes`. -/
theorem claim_C10_no_local_mac (sysAddr : String → Option String)
    (ipLink : Except Unit String) (e : Env)
    (h1 : ∀ iface ∈ LOCAL_MAC_IFACES, ∀ c, sysAddr iface = some c → pyLower (pyStrip c) = "")
    (h2 : ∀ out, ipLink = .ok out → linkMacGo out.data = none)
    (hm : e.localMac = _get_local_mac sysAddr ipLink) :
    e.localMac = none ∧
    (build_status e).«local».mac = "" ∧
    (∀ text raw, e.batctl = .ok text → raw ∈ pyLines text → wellFormedLine raw = true →
      originatorOf raw ∈ ((build_status e).nodes.map Prod.fst)) := by
  have hnone : _get_local_mac sysAddr ipLink = none := by
    simp only [_get_local_mac]
    have hfi : (LOCAL_MAC_IFACES.findSome? fun iface =>
        match sysAddr iface with
        | some content =>
          if pyLower (pyStrip content) ≠ "" then some (pyLower (pyStrip content)) else none
        | none => none) = none := by
      rw [List.findSome?_eq_none_iff]
      intro iface hif
      cases hs : sysAddr iface with
      | none => rfl
      | some c =>
        have hc := h1 iface hif c hs
        simp [hc]
    rw [hfi]
    cases hip : ipLink with
    | error u => rfl
    | ok out => simp only [h2 out hip]
  have hm2 : e.localMac = none := hm.trans hnone
  refine ⟨hm2, ?_, ?_⟩
  · simp only [build_status, hm2]
    rfl
  · intro text raw hbt hraw hwf
    simp only [build_status]
    rw [mergeNodes_keys, hbt, hm2, get_batman_nodes_keys]
    apply mem_firstDedup.mpr
    rw [acceptedMacs]
    apply List.mem_filterMap.mpr
    exact ⟨raw, hraw, parseOriginatorLine_localNone hwf⟩

/-- Claim C10 witness: the concrete detection-failure environment. -/
theorem claim_C10_witness :
    noMacEnv.localMac = none ∧
    (build_status noMacEnv).«local».mac = "" ∧
    originatorOf " * aa:bb:cc:dd:ee:ff 1.0s (150) bb:cc:dd:ee:ff:11"
      ∈ ((build_status noMacEnv).nodes.map Prod.fst) := by
  have h := claim_C10_no_local_mac (fun _ => none) (.ok "1: lo: <LOOPBACK,UP> mtu 65536")
    noMacEnv
    (by
      intro iface _ c hc
      exact Option.noConfusion hc)
    (by
      intro out hout
      cases hout
      decide)
    rfl
  exact ⟨h.1, h.2.1, h.2.2 " * aa:bb:cc:dd:ee:ff 1.0s (150) bb:cc:dd:ee:ff:11"
    " * aa:bb:cc:dd:ee:ff 1.0s (150) bb:cc:dd:ee:ff:11" rfl (by decide) (by decide)⟩

end Ogm
